import Mathlib

set_option linter.unusedSectionVars false

/-!
Shallow embedding of the TDRG multi-label recognition architecture
(file src/models/TDRG.py) and verification of its specification claims.

Tensors are modelled as shape-carrying structures whose entries are drawn
from a linearly ordered field (rationals for the executable fragments,
reals where the source applies sigmoid, square roots or exponentials).
Values outside the recorded bounds are irrelevant junk; tensor equality is
the predicate Tensor4.EqOn, which compares shapes and all in-bounds
entries.  Floating point rounding is abstracted away: arithmetic is exact,
and the one place the source divides by zero (top-k pooling with an
effective count of zero, which yields NaN in the original) is modelled by
an Option result, none standing for the NaN output.
-/

/-- Rank-4 tensor [batch, channels, height, width] over entries in a. -/
structure Tensor4 (a : Type) where
  b : ℕ
  c : ℕ
  h : ℕ
  w : ℕ
  val : ℕ → ℕ → ℕ → ℕ → a

/-- Rank-3 tensor [batch, channels, positions] over entries in a. -/
structure Tensor3 (a : Type) where
  b : ℕ
  c : ℕ
  n : ℕ
  val : ℕ → ℕ → ℕ → a

/-- Extensional equality of rank-4 tensors: equal shapes and equal entries
at every in-bounds index. -/
def Tensor4.EqOn {a : Type} (x y : Tensor4 a) : Prop :=
  x.b = y.b ∧ x.c = y.c ∧ x.h = y.h ∧ x.w = y.w ∧
    ∀ b < x.b, ∀ c < x.c, ∀ i < x.h, ∀ j < x.w, x.val b c i j = y.val b c i j

section TopK

variable {a : Type} [LinearOrderedField a] [FloorRing a]

/-- The flattened spatial values of channel (b, c), in the row-major order
produced by input.view(batch, channels, h*w) in TopKMaxPooling.forward. -/
def flattenVals (x : Tensor4 a) (b c : ℕ) : List a :=
  (List.range (x.h * x.w)).map fun p => x.val b c (p / x.w) (p % x.w)

/-- Descending sort, the semantics of torch.sort(..., descending=True) as
used by TopKMaxPooling.forward.  The source only consumes the sum of a
leading run of the sorted values, which is independent of the order chosen
among equal entries, so any sort realising the order works. -/
def sortDesc (l : List a) : List a :=
  l.insertionSort (· ≥ ·)

/-- Rounding as performed by the Python builtin round (round half to
even), applied by get_positive_k when 0 < k < 1. -/
def pyRound (q : a) : ℤ :=
  if q - ⌊q⌋ < 1 / 2 then ⌊q⌋
  else if (1 : a) / 2 < q - ⌊q⌋ then ⌊q⌋ + 1
  else if 2 ∣ ⌊q⌋ then ⌊q⌋ else ⌊q⌋ + 1

/-- TopKMaxPooling.get_positive_k from src/models/TDRG.py: the effective
number of spatial positions to average, given the parameter k and the
number n = h*w of regions. -/
def getPositiveK (k : a) (n : ℕ) : ℕ :=
  if k ≤ 0 then 0
  else if k < 1 then (pyRound (k * n)).toNat
  else if (n : a) < k then n
  else (⌊k⌋).toNat

/-- TopKMaxPooling.forward from src/models/TDRG.py, at batch b, channel c:
flatten the spatial map, sort descending, keep the first
get_positive_k(kmax, n) entries, and divide their sum by that count.
When the count is zero the source computes 0.0/0, an IEEE NaN, modelled
here as none. -/
def topkForward (kmax : a) (x : Tensor4 a) (b c : ℕ) : Option a :=
  let n := x.h * x.w
  let ke := getPositiveK kmax n
  if ke = 0 then none
  else some (((sortDesc (flattenVals x b c)).take ke).sum / (ke : a))

/-- Spatial average of all h*w values of channel (b, c), the reading the
spec gives for average pooling. -/
def spatialAvg (x : Tensor4 a) (b c : ℕ) : a :=
  (flattenVals x b c).sum / ((x.h * x.w : ℕ) : a)

end TopK

section CrossScale

variable {a : Type} [LinearOrderedField a] [FloorRing a]

/-- Source coordinate used by bilinear interpolation with
align_corners=True: for output index i, the sampling position is
i * (inN - 1) / (outN - 1), and 0 when the output size is 1. -/
def srcCoord (inN outN i : ℕ) : a :=
  if outN ≤ 1 then 0 else (i : a) * ((inN : a) - 1) / ((outN : a) - 1)

/-- One-dimensional linear interpolation of the sequence v of length inN
at the fractional position s, clamping the upper neighbour to the last
index, as torch bilinear sampling does. -/
def lerp1 (inN : ℕ) (v : ℕ → a) (s : a) : a :=
  let i0 : ℕ := (⌊s⌋).toNat
  let i1 : ℕ := min (i0 + 1) (inN - 1)
  let t : a := s - (i0 : a)
  (1 - t) * v i0 + t * v i1

/-- F.interpolate(x, size=(oh, ow), mode=bilinear, align_corners=True):
separable linear interpolation along height then width. -/
def interpolate (x : Tensor4 a) (oh ow : ℕ) : Tensor4 a :=
  ⟨x.b, x.c, oh, ow, fun b c i j =>
    lerp1 x.h (fun r => lerp1 x.w (fun s => x.val b c r s) (srcCoord x.w ow j))
      (srcCoord x.h oh i)⟩

/-- Pointwise sum; shape taken from the first operand. -/
def addT (x y : Tensor4 a) : Tensor4 a :=
  ⟨x.b, x.c, x.h, x.w, fun b c i j => x.val b c i j + y.val b c i j⟩

/-- Pointwise product; shape taken from the first operand. -/
def mulT (x y : Tensor4 a) : Tensor4 a :=
  ⟨x.b, x.c, x.h, x.w, fun b c i j => x.val b c i j * y.val b c i j⟩

/-- TDRG.cross_scale_attention from src/models/TDRG.py: resize all three
maps to the square (h_max, h_max) resolution where h_max is the largest
of the three heights, add the elementwise triple product to each, then
resize output i back to the square (h_i, h_i) of the height of input i. -/
def crossScaleAttention (x3 x4 x5 : Tensor4 a) :
    Tensor4 a × Tensor4 a × Tensor4 a :=
  let h3 := x3.h
  let h4 := x4.h
  let h5 := x5.h
  let hm := max h3 (max h4 h5)
  let y3 := interpolate x3 hm hm
  let y4 := interpolate x4 hm hm
  let y5 := interpolate x5 hm hm
  let mul := mulT (mulT y3 y4) y5
  let z3 := addT y3 mul
  let z4 := addT y4 mul
  let z5 := addT y5 mul
  (interpolate z3 h3 h3, interpolate z4 h4 h4, interpolate z5 h5 h5)

/-- The tensor whose entries are x + x^3, the value the spec predicts for
Cross-Scale Attention Fusion on three identical inputs. -/
def specCube (x : Tensor4 a) : Tensor4 a :=
  ⟨x.b, x.c, x.h, x.w, fun b c i j => x.val b c i j + (x.val b c i j) ^ 3⟩

end CrossScale

section Rank3Ops

variable {a : Type} [LinearOrderedField a] [FloorRing a]

/-- Reshape x.view(b, c, h*w): flatten the spatial grid row-major. -/
def view3 (x : Tensor4 a) : Tensor3 a :=
  ⟨x.b, x.c, x.h * x.w, fun b c p => x.val b c (p / x.w) (p % x.w)⟩

/-- tensor.transpose(1, 2) on a rank-3 tensor. -/
def transpose3 (t : Tensor3 a) : Tensor3 a :=
  ⟨t.b, t.n, t.c, fun b i j => t.val b j i⟩

/-- Batched torch.matmul of [B,F,N] by [B,N,M]: contract the middle
index. -/
def matmul3 (x y : Tensor3 a) : Tensor3 a :=
  ⟨x.b, x.c, y.n, fun b f c => ∑ j ∈ Finset.range x.n, x.val b f j * y.val b j c⟩

/-- nn.Conv1d with kernel size 1 and bias: a channel-mixing affine map
applied at every position. -/
def conv1dT (co : ℕ) (W : ℕ → ℕ → a) (bias : ℕ → a) (t : Tensor3 a) : Tensor3 a :=
  ⟨t.b, co, t.n, fun b o j => (∑ i ∈ Finset.range t.c, W o i * t.val b i j) + bias o⟩

/-- nn.LeakyReLU with negative slope s. -/
def leakyRelu (s x : a) : a :=
  if x < 0 then s * x else x

/-- Pointwise LeakyReLU on a rank-3 tensor. -/
def lreluT3 (s : a) (t : Tensor3 a) : Tensor3 a :=
  ⟨t.b, t.c, t.n, fun b c j => leakyRelu s (t.val b c j)⟩

/-- Pointwise sum of rank-3 tensors; shape from the first operand. -/
def addT3 (x y : Tensor3 a) : Tensor3 a :=
  ⟨x.b, x.c, x.n, fun b c j => x.val b c j + y.val b c j⟩

/-- torch.cat along dim 1 (channels) of rank-3 tensors. -/
def cat3 (x y : Tensor3 a) : Tensor3 a :=
  ⟨x.b, x.c + y.c, x.n, fun b f j => if f < x.c then x.val b f j else y.val b (f - x.c) j⟩

/-- nn.AdaptiveAvgPool1d(1): mean over the position axis. -/
def gap1d (t : Tensor3 a) : Tensor3 a :=
  ⟨t.b, t.c, 1, fun b c _ => (∑ p ∈ Finset.range t.n, t.val b c p) / ((t.n : ℕ) : a)⟩

/-- tensor.expand over the (size-1) position axis to m positions. -/
def expand3 (t : Tensor3 a) (m : ℕ) : Tensor3 a :=
  ⟨t.b, t.c, m, fun b c _ => t.val b c 0⟩

/-- torch.eye(num_classes), the fixed identity mask mask_mat; entry
(i, j) is 1 exactly on the diagonal. -/
def maskMat (i j : ℕ) : a :=
  if i = j then 1 else 0

/-- The fusion reduction of TDRG.forward line 259: multiply the
[B,Cls,Cls] logits elementwise by the identity mask (broadcast over the
batch) and sum over the last axis. -/
def maskedDiagSum (L : Tensor3 a) : ℕ → ℕ → a :=
  fun b i => ∑ j ∈ Finset.range L.n, L.val b i j * maskMat i j

/-- GraphConvolution.forward from src/models/TDRG.py: right-multiply the
nodes by the adjacency, LeakyReLU(0.2), 1x1 conv (self.weight),
LeakyReLU(0.2) again. -/
def graphConvForward (co : ℕ) (W : ℕ → ℕ → a) (bias : ℕ → a)
    (adj nodes : Tensor3 a) : Tensor3 a :=
  lreluT3 (1 / 5) (conv1dT co W bias (lreluT3 (1 / 5) (matmul3 nodes adj)))

/-- The residual fusion G = forward_gcn(A_s, V) + V of TDRG.forward line
252. -/
def gcnResidualFusion (co : ℕ) (W : ℕ → ℕ → a) (bias : ℕ → a)
    (adj nodes : Tensor3 a) : Tensor3 a :=
  addT3 (graphConvForward co W bias adj nodes) nodes

/-- nn.Conv2d with kernel size 1 and bias. -/
def conv2d1x1 (co : ℕ) (W : ℕ → ℕ → a) (bias : ℕ → a) (x : Tensor4 a) : Tensor4 a :=
  ⟨x.b, co, x.h, x.w, fun b o i j =>
    (∑ ic ∈ Finset.range x.c, W o ic * x.val b ic i j) + bias o⟩

/-- nn.Conv2d with kernel size 1 and bias=False (the constraint
classifier). -/
def conv2d1x1NoBias (co : ℕ) (W : ℕ → ℕ → a) (x : Tensor4 a) : Tensor4 a :=
  ⟨x.b, co, x.h, x.w, fun b o i j =>
    ∑ ic ∈ Finset.range x.c, W o ic * x.val b ic i j⟩

/-- nn.Conv2d with kernel size 3, stride 2, no padding (transform_7). -/
def conv2d3x3s2 (co : ℕ) (W : ℕ → ℕ → ℕ → ℕ → a) (bias : ℕ → a)
    (x : Tensor4 a) : Tensor4 a :=
  ⟨x.b, co, (x.h - 3) / 2 + 1, (x.w - 3) / 2 + 1, fun b o i j =>
    (∑ ic ∈ Finset.range x.c, ∑ di ∈ Finset.range 3, ∑ dj ∈ Finset.range 3,
      W o ic di dj * x.val b ic (2 * i + di) (2 * j + dj)) + bias o⟩

/-- nn.AdaptiveMaxPool2d(1) followed by view(b, -1): the spatial maximum
of each channel. -/
def gmpVec (x : Tensor4 a) (b i : ℕ) : a :=
  (flattenVals x b i).foldl max (x.val b i 0 0)

/-- torch.zeros_like(x[:, 0, :, :], dtype=torch.bool): the all-false
padding mask handed to the transformer. -/
def zeroMask (_x : Tensor4 a) : ℕ → ℕ → ℕ → Bool :=
  fun _ _ _ => false

end Rank3Ops

noncomputable section RealModel

/-- The logistic sigmoid used by torch.sigmoid. -/
def sigmoid (x : ℝ) : ℝ :=
  1 / (1 + Real.exp (-x))

/-- Pointwise sigmoid on a rank-3 tensor. -/
def sigmoidT3 (t : Tensor3 ℝ) : Tensor3 ℝ :=
  ⟨t.b, t.c, t.n, fun b c j => sigmoid (t.val b c j)⟩

/-- nn.BatchNorm1d in evaluation form: per-channel normalisation by the
running statistics followed by the learned affine map. -/
def bnT (mean var gamma beta : ℕ → ℝ) (eps : ℝ) (t : Tensor3 ℝ) : Tensor3 ℝ :=
  ⟨t.b, t.c, t.n, fun b c j =>
    (t.val b c j - mean c) / Real.sqrt (var c + eps) * gamma c + beta c⟩

/-- The external transformer collaborator: (features, padding mask, query
embedding, positional encoding) to the encoder memory, the only component
TDRG uses. -/
def TransformerFn : Type :=
  Tensor4 ℝ → (ℕ → ℕ → ℕ → Bool) → (ℕ → ℕ → ℝ) → Tensor4 ℝ → Tensor4 ℝ

/-- The external positional-encoding collaborator. -/
def PosFn : Type :=
  Tensor4 ℝ → Tensor4 ℝ

/-- The learned parameters of TDRG that the modelled fragment reads,
together with the construction dimensions.  w7/b7, w14/b14, w28/b28 are
the transformer-projection convolutions transform_7 / transform_14 /
transform_28. -/
structure TDRGParams where
  Cls : ℕ
  Ct : ℕ
  Cg : ℕ
  w7 : ℕ → ℕ → ℕ → ℕ → ℝ
  b7 : ℕ → ℝ
  w14 : ℕ → ℕ → ℝ
  b14 : ℕ → ℝ
  w28 : ℕ → ℕ → ℝ
  b28 : ℕ → ℝ
  queryEmbed : ℕ → ℕ → ℝ
  transClsW : ℕ → ℕ → ℝ
  transClsB : ℕ → ℝ
  constraintW : ℕ → ℕ → ℝ
  gcnDimW : ℕ → ℕ → ℝ
  gcnDimB : ℕ → ℝ
  guidTransW : ℕ → ℕ → ℝ
  guidTransB : ℕ → ℝ
  guidConvW : ℕ → ℕ → ℝ
  guidConvB : ℕ → ℝ
  bnMean : ℕ → ℝ
  bnVar : ℕ → ℝ
  bnGamma : ℕ → ℝ
  bnBeta : ℕ → ℝ
  bnEps : ℝ
  matTransW : ℕ → ℕ → ℝ
  matTransB : ℕ → ℝ
  gcnW : ℕ → ℕ → ℝ
  gcnB : ℕ → ℝ
  gcnClsW : ℕ → ℕ → ℝ
  gcnClsB : ℕ → ℝ

/-- The first half of TDRG.forward_transformer: project x4 with the
strided transform_7 and the 1x1 transform_14, project x3 with the 1x1
transform_28, run cross_scale_attention, and feed each result through the
transformer with an all-false mask, the query embedding, and the
positional encoding.  Returns the three encoder memories feat3, feat4,
feat5. -/
def structuralFeats (T : TransformerFn) (pos : PosFn) (p : TDRGParams)
    (x3 x4 : Tensor4 ℝ) : Tensor4 ℝ × Tensor4 ℝ × Tensor4 ℝ :=
  let x5 := conv2d3x3s2 p.Ct p.w7 p.b7 x4
  let x4p := conv2d1x1 p.Ct p.w14 p.b14 x4
  let x3p := conv2d1x1 p.Ct p.w28 p.b28 x3
  let r := crossScaleAttention x3p x4p x5
  (T r.1 (zeroMask r.1) p.queryEmbed (pos r.1),
   T r.2.1 (zeroMask r.2.1) p.queryEmbed (pos r.2.1),
   T r.2.2 (zeroMask r.2.2) p.queryEmbed (pos r.2.2))

/-- The structural-guidance tensors f3, f4, f5 of forward_transformer:
the encoder memories flattened to [B, C, N].  In the source they are
detached at this point; the caller models the detach by evaluating this
function at the shadow (gradient-stopped) copy of the parameters. -/
def structuralGuidance (T : TransformerFn) (pos : PosFn) (p : TDRGParams)
    (x3 x4 : Tensor4 ℝ) : Tensor3 ℝ × Tensor3 ℝ × Tensor3 ℝ :=
  let r := structuralFeats T pos p x3 x4
  (view3 r.1, view3 r.2.1, view3 r.2.2)

/-- The transformer-branch logits out_trans of TDRG.forward: global
max-pool each encoder memory, concatenate the three pooled vectors, and
apply the linear trans_classifier.  Indexing is (batch, class). -/
def outTransModel (T : TransformerFn) (pos : PosFn) (p : TDRGParams)
    (x3 x4 : Tensor4 ℝ) : ℕ → ℕ → ℝ :=
  fun b q =>
    let r := structuralFeats T pos p x3 x4
    let d3 := r.1.c
    let d4 := r.2.1.c
    let d5 := r.2.2.c
    (∑ i ∈ Finset.range (d3 + d4 + d5), p.transClsW q i *
      (if i < d3 then gmpVec r.1 b i
       else if i < d3 + d4 then gmpVec r.2.1 b (i - d3)
       else gmpVec r.2.2 b (i - d3 - d4))) + p.transClsB q

/-- TDRG.build_nodes: the per-class spatial attention is the sigmoid of
the constraint classifier; v_g pools the gcn_dim_transform features with
it, v_t pools the (detached) guidance f4 with it and is detached again
before the guidance_transform 1x1 conv.  pL carries the live parameters,
pS the shadow copy used inside every detached subterm. -/
def buildNodesModel (pL pS : TDRGParams) (x4 : Tensor4 ℝ) (f4S : Tensor3 ℝ) :
    Tensor3 ℝ :=
  let maskL := transpose3 (sigmoidT3 (view3 (conv2d1x1NoBias pL.Cls pL.constraintW x4)))
  let xg := view3 (conv2d1x1 pL.Cg pL.gcnDimW pL.gcnDimB x4)
  let vg := matmul3 xg maskL
  let maskS := transpose3 (sigmoidT3 (view3 (conv2d1x1NoBias pS.Cls pS.constraintW x4)))
  let vt := conv1dT pL.Ct pL.guidTransW pL.guidTransB (matmul3 f4S maskS)
  cat3 vg vt

/-- TDRG.build_joint_correlation_matrix: average-pool the three guidance
tensors, concatenate, 1x1 conv, batch norm, LeakyReLU(0.2), expand across
the classes, concatenate with the node matrix, collapse to
[B,Cls,Cls] with matrix_transform, and bound with sigmoid. -/
def buildJCMModel (p : TDRGParams) (f3 f4 f5 V : Tensor3 ℝ) : Tensor3 ℝ :=
  let g4 := gap1d f4
  let g3 := gap1d f3
  let g5 := gap1d f5
  let tg := cat3 g3 (cat3 g4 g5)
  let a1 := conv1dT (3 * p.Ct) p.guidConvW p.guidConvB tg
  let a2 := bnT p.bnMean p.bnVar p.bnGamma p.bnBeta p.bnEps a1
  let a3 := lreluT3 (1 / 5) a2
  let a4 := expand3 a3 V.n
  sigmoidT3 (conv1dT p.Cls p.matTransW p.matTransB (cat3 a4 V))

/-- The GCN-branch logits out_gcn of TDRG.forward (steps 4 to 7): nodes,
joint correlation, one graph convolution with residual, gcn_classifier,
and the identity-mask diagonal reduction.  Every detached subterm is
evaluated at the shadow parameters pS; the live parameters pL are the
ones gradients flow to, and at pL = pS the value agrees with the
source.  Indexing is (batch, class). -/
def outGcnModel (T : TransformerFn) (pos : PosFn) (pL pS : TDRGParams)
    (x3 x4 : Tensor4 ℝ) : ℕ → ℕ → ℝ :=
  fun b i =>
    let g := structuralGuidance T pos pS x3 x4
    let V := buildNodesModel pL pS x4 g.2.1
    let A := buildJCMModel pL g.1 g.2.1 g.2.2 V
    let G := gcnResidualFusion (pL.Ct + pL.Cg) pL.gcnW pL.gcnB A V
    maskedDiagSum (conv1dT pL.Cls pL.gcnClsW pL.gcnClsB G) b i

/-- The constraint-branch logits out_sac of TDRG.forward: the constraint
classifier followed by top-k pooling with the fixed kmax = 0.05. -/
def outSacModel (p : TDRGParams) (x4 : Tensor4 ℝ) : ℕ → ℕ → Option ℝ :=
  fun b c => topkForward (1 / 20 : ℝ) (conv2d1x1NoBias p.Cls p.constraintW x4) b c

end RealModel

section Fixtures

/-- An all-zero rational tensor of the given shape, used as a concrete
test input. -/
def zeros4Q (b c h w : ℕ) : Tensor4 ℚ :=
  ⟨b, c, h, w, fun _ _ _ _ => 0⟩

/-- A 1x1x1x2 activation map holding the values 0 and 2: its spatial
average is 1 and its spatial maximum is 2. -/
def tX1 : Tensor4 ℚ :=
  ⟨1, 1, 1, 2, fun _ _ _ j => if j = 0 then 0 else 2⟩

/-- A 1x1x2x2 activation map holding the values 0, 2, 1, 3. -/
def tX6 : Tensor4 ℚ :=
  ⟨1, 1, 2, 2, fun _ _ i j => ((i + 2 * j : ℕ) : ℚ)⟩

/-- A 1x1x1x1 tensor with constant value 2, a square input for the
cross-scale fusion. -/
def tX7 : Tensor4 ℚ :=
  ⟨1, 1, 1, 1, fun _ _ _ _ => 2⟩

/-- A concrete 1x2x2 rational rank-3 logits tensor. -/
def tG4 : Tensor3 ℚ :=
  ⟨1, 2, 2, fun _ f j => ((1 + f + 2 * j : ℕ) : ℚ)⟩

end Fixtures

noncomputable section RealFixtures

/-- A concrete transformer collaborator for tests: returns its feature
input as the encoder memory. -/
def cexTrans : TransformerFn := fun x _ _ _ => x

/-- A concrete positional-encoding collaborator for tests: the identity. -/
def cexPos : PosFn := fun x => x

/-- A concrete parameter setting with every weight, bias and statistic
zero (bnEps = 1), dimensions all 1.  In particular the trans_classifier
weight and bias are zero. -/
def cexParams : TDRGParams where
  Cls := 1
  Ct := 1
  Cg := 1
  w7 := fun _ _ _ _ => 0
  b7 := fun _ => 0
  w14 := fun _ _ => 0
  b14 := fun _ => 0
  w28 := fun _ _ => 0
  b28 := fun _ => 0
  queryEmbed := fun _ _ => 0
  transClsW := fun _ _ => 0
  transClsB := fun _ => 0
  constraintW := fun _ _ => 0
  gcnDimW := fun _ _ => 0
  gcnDimB := fun _ => 0
  guidTransW := fun _ _ => 0
  guidTransB := fun _ => 0
  guidConvW := fun _ _ => 0
  guidConvB := fun _ => 0
  bnMean := fun _ => 0
  bnVar := fun _ => 0
  bnGamma := fun _ => 0
  bnBeta := fun _ => 0
  bnEps := 1
  matTransW := fun _ _ => 0
  matTransB := fun _ => 0
  gcnW := fun _ _ => 0
  gcnB := fun _ => 0
  gcnClsW := fun _ _ => 0
  gcnClsB := fun _ => 0

/-- cexParams with the transform_14 projection weight changed from 0 to
1: a different transformer-projection parameter setting. -/
def cexParamsAlt : TDRGParams :=
  { cexParams with w14 := fun _ _ => 1 }

/-- A concrete all-zero 1x1x3x3 real input. -/
def cexInput : Tensor4 ℝ :=
  ⟨1, 1, 3, 3, fun _ _ _ _ => 0⟩

end RealFixtures

section SpecTopK

variable {a : Type} [LinearOrderedField a] [FloorRing a]

/-- The effective-count rule exactly as the spec words it: if 0 < k < 1
the count is round(k * H*W); if k > H*W the count is H*W; otherwise the
count is floor(k). -/
def specEffectiveCount (k : a) (n : ℕ) : ℕ :=
  if 0 < k ∧ k < 1 then (pyRound (k * n)).toNat
  else if (n : a) < k then n
  else (⌊k⌋).toNat

/-- The arithmetic mean of the effective-count largest spatial values of
channel (b, c), the output the spec describes for top-k pooling. -/
def specTopKMean (k : a) (x : Tensor4 a) (b c : ℕ) : a :=
  let m := specEffectiveCount k (x.h * x.w)
  ((sortDesc (flattenVals x b c)).take m).sum / (m : a)

end SpecTopK

section InterpolateLemmas

variable {a : Type} [LinearOrderedField a] [FloorRing a]

/-- With align_corners=True, resampling a length-n axis at its own
resolution hits the integer grid positions exactly. -/
theorem srcCoord_self {n i : ℕ} (h : i < n) : (srcCoord n n i : a) = (i : a) := by
  unfold srcCoord
  by_cases hn : n ≤ 1
  · have hi : i = 0 := by omega
    subst hi
    simp [hn]
  · rw [if_neg hn]
    have h1 : ((n : a) - 1) ≠ 0 := by
      have : (1 : a) < (n : a) := by exact_mod_cast (by omega : 1 < n)
      intro hc
      nlinarith
    rw [mul_div_assoc, div_self h1, mul_one]

/-- Linear interpolation at an exact integer position returns the sample
at that position. -/
theorem lerp1_natCast (m : ℕ) (v : ℕ → a) (i : ℕ) : lerp1 m v ((i : ℕ) : a) = v i := by
  unfold lerp1
  rw [Int.floor_natCast]
  simp

/-- Bilinear resampling of a tensor at its own spatial size is the
identity on all in-bounds entries. -/
theorem interpolate_val_self (t : Tensor4 a) (b c i j : ℕ)
    (hi : i < t.h) (hj : j < t.w) :
    (interpolate t t.h t.w).val b c i j = t.val b c i j := by
  simp only [interpolate]
  simp only [srcCoord_self hi, srcCoord_self hj, lerp1_natCast]

/-- Bilinear resampling to target sizes equal to the spatial sizes is the
identity on all in-bounds entries. -/
theorem interpolate_id (t : Tensor4 a) (oh ow : ℕ) (hoh : oh = t.h)
    (how : ow = t.w) (b c i j : ℕ) (hi : i < t.h) (hj : j < t.w) :
    (interpolate t oh ow).val b c i j = t.val b c i j := by
  subst hoh; subst how
  exact interpolate_val_self t b c i j hi hj

end InterpolateLemmas

section CrossScaleSquare

variable {a : Type} [LinearOrderedField a] [FloorRing a]

/-- On three identical square inputs, every in-bounds entry of the first
output of cross_scale_attention is x + x^3: the resizes are identities,
so the added triple product is the elementwise cube. -/
theorem crossScale_cube (B C H : ℕ) (v : ℕ → ℕ → ℕ → ℕ → a) (b c i j : ℕ)
    (hi : i < H) (hj : j < H) :
    (crossScaleAttention (⟨B, C, H, H, v⟩ : Tensor4 a) ⟨B, C, H, H, v⟩
        ⟨B, C, H, H, v⟩).1.val b c i j = v b c i j + (v b c i j) ^ 3 := by
  have hm : max H (max H H) = H := by simp
  set X : Tensor4 a := ⟨B, C, H, H, v⟩ with hX
  set M := max H (max H H) with hMdef
  set y : Tensor4 a := interpolate X M M with hy
  set z : Tensor4 a := addT y (mulT (mulT y y) y) with hz
  have hiM : i < M := by omega
  have hjM : j < M := by omega
  have step1 : (interpolate z H H).val b c i j = z.val b c i j :=
    interpolate_id z H H hm.symm hm.symm b c i j hiM hjM
  have hyv : y.val b c i j = v b c i j :=
    interpolate_id X M M hm hm b c i j hi hj
  calc (crossScaleAttention X X X).1.val b c i j
      = z.val b c i j := step1
    _ = y.val b c i j + (y.val b c i j * y.val b c i j * y.val b c i j) := rfl
    _ = v b c i j + (v b c i j) ^ 3 := by rw [hyv]; ring

end CrossScaleSquare

section TopKLemmas

variable {a : Type} [LinearOrderedField a] [FloorRing a]

/-- The descending sort is a permutation of its input. -/
theorem sortDesc_perm (l : List a) : List.Perm (sortDesc l) l :=
  List.perm_insertionSort _ l

/-- The descending sort is sorted with respect to the ge order. -/
theorem sortDesc_sorted (l : List a) : List.Sorted (· ≥ ·) (sortDesc l) :=
  List.sorted_insertionSort _ l

/-- The flattened channel has h*w entries. -/
theorem flattenVals_length (x : Tensor4 a) (b c : ℕ) :
    (flattenVals x b c).length = x.h * x.w := by
  simp [flattenVals]

/-- get_positive_k at k = 1 with at least one region returns 1. -/
theorem getPositiveK_one {n : ℕ} (hn : 1 ≤ n) : getPositiveK (1 : a) n = 1 := by
  unfold getPositiveK
  rw [if_neg (by norm_num), if_neg (by norm_num), if_neg, Int.floor_one]
  · rfl
  · have : (1 : a) ≤ (n : a) := by exact_mod_cast hn
    exact not_lt.mpr this

/-- When the effective count equals the number of regions, top-k pooling
returns the spatial average of the whole channel. -/
theorem topk_count_full_avg (kavg : a) (x : Tensor4 a) (b c : ℕ)
    (hn : 1 ≤ x.h * x.w) (hk : getPositiveK kavg (x.h * x.w) = x.h * x.w) :
    topkForward kavg x b c = some (spatialAvg x b c) := by
  simp only [topkForward]
  rw [hk, if_neg (by omega)]
  have hlen : (sortDesc (flattenVals x b c)).length = x.h * x.w := by
    rw [(sortDesc_perm (flattenVals x b c)).length_eq, flattenVals_length]
  rw [List.take_of_length_le (le_of_eq hlen),
    (sortDesc_perm (flattenVals x b c)).sum_eq]
  rfl

/-- With kmax = 1 and at least one region, top-k pooling returns an
element of the channel that bounds every element from above: the spatial
maximum. -/
theorem topk_one_max (x : Tensor4 a) (b c : ℕ) (hn : 1 ≤ x.h * x.w) :
    ∃ m, topkForward (1 : a) x b c = some m ∧ m ∈ flattenVals x b c ∧
      ∀ y ∈ flattenVals x b c, y ≤ m := by
  have hke := getPositiveK_one (a := a) hn
  have hlen : (sortDesc (flattenVals x b c)).length = x.h * x.w := by
    rw [(sortDesc_perm (flattenVals x b c)).length_eq, flattenVals_length]
  obtain ⟨m, t, hmt⟩ : ∃ m t, sortDesc (flattenVals x b c) = m :: t := by
    cases hs : sortDesc (flattenVals x b c) with
    | nil => rw [hs] at hlen; simp only [List.length_nil] at hlen; omega
    | cons m t => exact ⟨m, t, rfl⟩
  refine ⟨m, ?_, ?_, ?_⟩
  · simp only [topkForward]
    rw [hke, if_neg (by omega), hmt]
    simp
  · have : m ∈ sortDesc (flattenVals x b c) := by rw [hmt]; exact List.mem_cons_self m t
    exact (sortDesc_perm (flattenVals x b c)).subset this
  · intro y hy
    have hys : y ∈ sortDesc (flattenVals x b c) :=
      (sortDesc_perm (flattenVals x b c)).symm.subset hy
    rw [hmt] at hys
    rcases List.mem_cons.mp hys with h | h
    · exact le_of_eq h
    · have hsorted := sortDesc_sorted (l := flattenVals x b c)
      rw [hmt] at hsorted
      exact List.rel_of_sorted_cons hsorted y h

end TopKLemmas

/-- C1 (amended): for any k whose effective count equals H*W (k = H*W, or
any k larger, or a fraction rounding to H*W), top-k pooling returns the
per-channel spatial average; and for k = 1.0, whose effective count is 1,
it returns the per-channel spatial maximum (an element of the channel
bounding every element). -/
theorem claim_c1_theorem (x : Tensor4 ℚ) (b c : ℕ) (kavg : ℚ)
    (hn : 1 ≤ x.h * x.w) (hk : getPositiveK kavg (x.h * x.w) = x.h * x.w) :
    topkForward kavg x b c = some (spatialAvg x b c) ∧
      ∃ m, topkForward (1 : ℚ) x b c = some m ∧ m ∈ flattenVals x b c ∧
        ∀ y ∈ flattenVals x b c, y ≤ m :=
  ⟨topk_count_full_avg kavg x b c hn hk, topk_one_max x b c hn⟩

/-- C1 witness: on the 1x1x1x2 map with values 0 and 2, k = 2 = H*W
averages to 1 and k = 1.0 returns the maximum 2. -/
theorem claim_c1_witness :
    (1 ≤ tX1.h * tX1.w ∧ getPositiveK (2 : ℚ) (tX1.h * tX1.w) = tX1.h * tX1.w) ∧
      (topkForward (2 : ℚ) tX1 0 0 = some (spatialAvg tX1 0 0) ∧
        ∃ m, topkForward (1 : ℚ) tX1 0 0 = some m ∧ m ∈ flattenVals tX1 0 0 ∧
          ∀ y ∈ flattenVals tX1 0 0, y ≤ m) :=
  ⟨⟨by norm_num [tX1], by norm_num [getPositiveK, tX1]; decide⟩,
    claim_c1_theorem tX1 0 0 2 (by norm_num [tX1])
      (by norm_num [getPositiveK, tX1]; decide)⟩

/-- C1 counterexample: with k = 1.0 on the 1x1x1x2 map with values 0 and
2, the source computes get_positive_k(1.0, 2) = int(1.0) = 1 and returns
the maximum 2, not the spatial average 1 the claim asserts for k = 1.0. -/
theorem claim_c1_counterexample :
    (topkForward (1 : ℚ) tX1 0 0 = some (spatialAvg tX1 0 0)) = False := by
  have h1 : topkForward (1 : ℚ) tX1 0 0 = some 2 := by
    norm_num [topkForward, getPositiveK, pyRound, sortDesc, flattenVals, tX1,
      List.range_succ, List.insertionSort, List.orderedInsert]
  have h2 : spatialAvg tX1 0 0 = 1 := by
    norm_num [spatialAvg, flattenVals, tX1, List.range_succ]
  refine eq_false fun h => ?_
  rw [h1, h2] at h
  exact absurd (Option.some.inj h) (by norm_num)

/-- C3: the source rejects nothing at construction: TopKMaxPooling merely
stores kmax, get_positive_k maps k = 0 to the count 0, and forward then
divides the empty sum by zero, yielding NaN (modelled none) instead of an
input-validation error. -/
theorem claim_c3_theorem :
    getPositiveK (0 : ℚ) ((zeros4Q 1 1 1 1).h * (zeros4Q 1 1 1 1).w) = 0 ∧
      topkForward (0 : ℚ) (zeros4Q 1 1 1 1) 0 0 = none := by
  constructor
  · norm_num [getPositiveK, zeros4Q]
  · norm_num [topkForward, getPositiveK, zeros4Q]

/-- C6: for every k > 0 the effective count the source computes equals
the count rule as the spec words it (round(k*H*W) for 0 < k < 1, with
round the Python half-to-even rounding; H*W for k > H*W; floor(k)
otherwise), and whenever that count is at least 1 the per-channel output
is the arithmetic mean of the effective-count largest spatial values. -/
theorem claim_c6_theorem (x : Tensor4 ℚ) (k : ℚ) (hk : 0 < k) :
    specEffectiveCount k (x.h * x.w) = getPositiveK k (x.h * x.w) ∧
      ∀ b c, 1 ≤ specEffectiveCount k (x.h * x.w) →
        topkForward k x b c = some (specTopKMean k x b c) := by
  have hcount : specEffectiveCount k (x.h * x.w) = getPositiveK k (x.h * x.w) := by
    unfold specEffectiveCount getPositiveK
    rw [if_neg (not_le.mpr hk)]
    by_cases h1 : k < 1
    · rw [if_pos ⟨hk, h1⟩, if_pos h1]
    · rw [if_neg (fun hc => h1 hc.2), if_neg h1]
  refine ⟨hcount, fun b c hm => ?_⟩
  simp only [topkForward, specTopKMean]
  rw [← hcount, if_neg (by omega)]

/-- C6 witness: on the 1x1x2x2 map with values 0, 2, 1, 3 and k = 3/2,
the effective count is floor(3/2) = 1 and the output is the top value 3. -/
theorem claim_c6_witness :
    ((0 : ℚ) < 3/2) ∧
      specEffectiveCount (3/2 : ℚ) (tX6.h * tX6.w) = getPositiveK (3/2 : ℚ) (tX6.h * tX6.w) ∧
      (1 ≤ specEffectiveCount (3/2 : ℚ) (tX6.h * tX6.w) ∧
        topkForward (3/2 : ℚ) tX6 0 0 = some (specTopKMean (3/2 : ℚ) tX6 0 0)) :=
  ⟨by norm_num, (claim_c6_theorem tX6 (3/2) (by norm_num)).1,
    ⟨by norm_num [specEffectiveCount, tX6],
      (claim_c6_theorem tX6 (3/2) (by norm_num)).2 0 0
        (by norm_num [specEffectiveCount, tX6])⟩⟩

/-- C10: with a fractional parameter 0 < k < 1 whose rounded count
round(k * H*W) is 0, top-k pooling raises nothing and returns the NaN
produced by dividing the empty sum by zero (modelled none), for every
batch and channel index. -/
theorem claim_c10_theorem (k : ℚ) (x : Tensor4 ℚ) (h0 : 0 < k) (h1 : k < 1)
    (hz : pyRound (k * ((x.h * x.w : ℕ) : ℚ)) = 0) :
    ∀ b c, topkForward k x b c = none := by
  intro b c
  have hke : getPositiveK k (x.h * x.w) = 0 := by
    unfold getPositiveK
    rw [if_neg (not_le.mpr h0), if_pos h1, hz]
    rfl
  simp only [topkForward]
  rw [hke]
  simp

/-- C10 witness: the fixed kmax = 0.05 of the architecture on a 3x3 spatial map has
round(0.05 * 9) = round(0.45) = 0, and forward returns NaN (none). -/
theorem claim_c10_witness :
    ((0 : ℚ) < 1/20 ∧ (1/20 : ℚ) < 1 ∧
      pyRound ((1/20 : ℚ) * (((zeros4Q 1 1 3 3).h * (zeros4Q 1 1 3 3).w : ℕ) : ℚ)) = 0) ∧
      topkForward (1/20 : ℚ) (zeros4Q 1 1 3 3) 0 0 = none :=
  ⟨⟨by norm_num, by norm_num, by norm_num [pyRound, zeros4Q]⟩,
    claim_c10_theorem (1/20) (zeros4Q 1 1 3 3) (by norm_num) (by norm_num)
      (by norm_num [pyRound, zeros4Q]) 0 0⟩

/-- C2 (amended): cross_scale_attention restores shapes exactly when each
input is square (h = w); in general each output has spatial size
(h_i, h_i) taken from the height of that input, so a non-square width is not
restored.  Batch and channel sizes are always preserved. -/
theorem claim_c2_theorem (x3 x4 x5 : Tensor4 ℚ) (h3 : x3.h = x3.w)
    (h4 : x4.h = x4.w) (h5 : x5.h = x5.w) :
    ((crossScaleAttention x3 x4 x5).1.b = x3.b ∧
      (crossScaleAttention x3 x4 x5).1.c = x3.c ∧
      (crossScaleAttention x3 x4 x5).1.h = x3.h ∧
      (crossScaleAttention x3 x4 x5).1.w = x3.w) ∧
    ((crossScaleAttention x3 x4 x5).2.1.b = x4.b ∧
      (crossScaleAttention x3 x4 x5).2.1.c = x4.c ∧
      (crossScaleAttention x3 x4 x5).2.1.h = x4.h ∧
      (crossScaleAttention x3 x4 x5).2.1.w = x4.w) ∧
    ((crossScaleAttention x3 x4 x5).2.2.b = x5.b ∧
      (crossScaleAttention x3 x4 x5).2.2.c = x5.c ∧
      (crossScaleAttention x3 x4 x5).2.2.h = x5.h ∧
      (crossScaleAttention x3 x4 x5).2.2.w = x5.w) :=
  ⟨⟨rfl, rfl, rfl, h3⟩, ⟨rfl, rfl, rfl, h4⟩, ⟨rfl, rfl, rfl, h5⟩⟩

/-- C2 witness: three concrete square inputs of sizes 1, 2 and 1 keep
their shapes through cross_scale_attention. -/
theorem claim_c2_witness :
    (tX7.h = tX7.w ∧ (zeros4Q 1 1 2 2).h = (zeros4Q 1 1 2 2).w ∧
      (zeros4Q 1 1 1 1).h = (zeros4Q 1 1 1 1).w) ∧
    (((crossScaleAttention tX7 (zeros4Q 1 1 2 2) (zeros4Q 1 1 1 1)).1.b = tX7.b ∧
      (crossScaleAttention tX7 (zeros4Q 1 1 2 2) (zeros4Q 1 1 1 1)).1.c = tX7.c ∧
      (crossScaleAttention tX7 (zeros4Q 1 1 2 2) (zeros4Q 1 1 1 1)).1.h = tX7.h ∧
      (crossScaleAttention tX7 (zeros4Q 1 1 2 2) (zeros4Q 1 1 1 1)).1.w = tX7.w) ∧
    ((crossScaleAttention tX7 (zeros4Q 1 1 2 2) (zeros4Q 1 1 1 1)).2.1.b = (zeros4Q 1 1 2 2).b ∧
      (crossScaleAttention tX7 (zeros4Q 1 1 2 2) (zeros4Q 1 1 1 1)).2.1.c = (zeros4Q 1 1 2 2).c ∧
      (crossScaleAttention tX7 (zeros4Q 1 1 2 2) (zeros4Q 1 1 1 1)).2.1.h = (zeros4Q 1 1 2 2).h ∧
      (crossScaleAttention tX7 (zeros4Q 1 1 2 2) (zeros4Q 1 1 1 1)).2.1.w = (zeros4Q 1 1 2 2).w) ∧
    ((crossScaleAttention tX7 (zeros4Q 1 1 2 2) (zeros4Q 1 1 1 1)).2.2.b = (zeros4Q 1 1 1 1).b ∧
      (crossScaleAttention tX7 (zeros4Q 1 1 2 2) (zeros4Q 1 1 1 1)).2.2.c = (zeros4Q 1 1 1 1).c ∧
      (crossScaleAttention tX7 (zeros4Q 1 1 2 2) (zeros4Q 1 1 1 1)).2.2.h = (zeros4Q 1 1 1 1).h ∧
      (crossScaleAttention tX7 (zeros4Q 1 1 2 2) (zeros4Q 1 1 1 1)).2.2.w = (zeros4Q 1 1 1 1).w)) :=
  ⟨⟨rfl, rfl, rfl⟩, claim_c2_theorem tX7 (zeros4Q 1 1 2 2) (zeros4Q 1 1 1 1) rfl rfl rfl⟩

/-- C2 counterexample: on the non-square 1x1x2x3 first input, the first
output of cross_scale_attention has width 2 (the input height), not the
original width 3: the exact original spatial dimensions are not
restored. -/
theorem claim_c2_counterexample :
    ((crossScaleAttention (zeros4Q 1 1 2 3) (zeros4Q 1 1 1 1) (zeros4Q 1 1 1 1)).1.w
      = (zeros4Q 1 1 2 3).w) = False :=
  eq_false (by decide)

/-- C7 (amended): for every square input x (h = w), cross_scale_attention
applied to three identical copies of x returns three tensors each equal
to x + x^3 elementwise; for non-square x the output spatial size is
(h, h), so the identity fails. -/
theorem claim_c7_theorem (x : Tensor4 ℚ) (hsq : x.h = x.w) :
    Tensor4.EqOn (crossScaleAttention x x x).1 (specCube x) ∧
      Tensor4.EqOn (crossScaleAttention x x x).2.1 (specCube x) ∧
      Tensor4.EqOn (crossScaleAttention x x x).2.2 (specCube x) := by
  obtain ⟨B, C, H, W, v⟩ := x
  dsimp only at hsq
  subst hsq
  have key : ∀ b c i j, i < H → j < H →
      (crossScaleAttention (⟨B, C, H, H, v⟩ : Tensor4 ℚ) ⟨B, C, H, H, v⟩
        ⟨B, C, H, H, v⟩).1.val b c i j = v b c i j + v b c i j ^ 3 :=
    fun b c i j hi hj => crossScale_cube B C H v b c i j hi hj
  refine ⟨⟨rfl, rfl, rfl, rfl, ?_⟩, ⟨rfl, rfl, rfl, rfl, ?_⟩,
    ⟨rfl, rfl, rfl, rfl, ?_⟩⟩ <;>
  · intro b hb c hc i hi j hj
    exact key b c i j hi hj

/-- C7 witness: on the square constant-2 input, all three outputs equal
2 + 2^3 = 10 everywhere in bounds. -/
theorem claim_c7_witness :
    (tX7.h = tX7.w) ∧
      (Tensor4.EqOn (crossScaleAttention tX7 tX7 tX7).1 (specCube tX7) ∧
        Tensor4.EqOn (crossScaleAttention tX7 tX7 tX7).2.1 (specCube tX7) ∧
        Tensor4.EqOn (crossScaleAttention tX7 tX7 tX7).2.2 (specCube tX7)) :=
  ⟨rfl, claim_c7_theorem tX7 rfl⟩

/-- C7 counterexample: for the non-square 1x1x1x2 input, the first output
of cross_scale_attention has width 1 while x + x^3 has width 2, so the
two tensors are not equal. -/
theorem claim_c7_counterexample :
    Tensor4.EqOn
      (crossScaleAttention (zeros4Q 1 1 1 2) (zeros4Q 1 1 1 2) (zeros4Q 1 1 1 2)).1
      (specCube (zeros4Q 1 1 1 2)) = False :=
  eq_false fun h => absurd h.2.2.2.1 (by decide)

section DiagLemmas

variable {a : Type} [LinearOrderedField a] [FloorRing a]

/-- Multiplying a [B,n,n] tensor elementwise by the identity mask and
summing the last axis picks out the diagonal entry of every in-bounds
row. -/
theorem maskedDiagSum_diag (L : Tensor3 a) (b i : ℕ) (hi : i < L.n) :
    maskedDiagSum L b i = L.val b i i := by
  unfold maskedDiagSum maskMat
  have hstep : ∀ j ∈ Finset.range L.n,
      L.val b i j * (if i = j then (1 : a) else 0) = if i = j then L.val b i j else 0 := by
    intro j _
    by_cases h : i = j <;> simp [h]
  rw [Finset.sum_congr rfl hstep, Finset.sum_ite_eq]
  simp [hi]

end DiagLemmas

/-- C4: the GCN-branch fusion output at (b, c) is the diagonal entry
raw_logits[b, c, c] of the [B,Cls,Cls] result of the 1x1 gcn_classifier
convolution: multiplying by the fixed identity mask and summing the last
axis is exactly diagonal extraction. -/
theorem claim_c4_theorem (co : ℕ) (W : ℕ → ℕ → ℚ) (bias : ℕ → ℚ)
    (G : Tensor3 ℚ) (b i : ℕ) (hi : i < G.n) :
    maskedDiagSum (conv1dT co W bias G) b i = (conv1dT co W bias G).val b i i :=
  maskedDiagSum_diag (conv1dT co W bias G) b i hi

/-- C4 witness: on a concrete 1x2x2 node tensor with all-ones classifier
weight, the masked sum at row 1 equals the raw logit at (1, 1). -/
theorem claim_c4_witness :
    (1 < tG4.n) ∧
      maskedDiagSum (conv1dT 2 (fun _ _ => (1 : ℚ)) (fun _ => 0) tG4) 0 1
        = (conv1dT 2 (fun _ _ => (1 : ℚ)) (fun _ => 0) tG4).val 0 1 1 :=
  ⟨by norm_num [tG4],
    claim_c4_theorem 2 (fun _ _ => 1) (fun _ => 0) tG4 0 1 (by norm_num [tG4])⟩

/-- C8: the graph-convolution stage computes, entrywise, exactly
LeakyReLU(0.2) of the 1x1 convolution of LeakyReLU(0.2) of the right
multiplication V times A_s (output column c mixes the node columns of V
with the weights of adjacency column c), and the fusion stage adds the
residual V. -/
theorem claim_c8_theorem (co : ℕ) (W : ℕ → ℕ → ℚ) (bias : ℕ → ℚ)
    (adj nodes : Tensor3 ℚ) (b f c : ℕ) :
    (gcnResidualFusion co W bias adj nodes).val b f c
      = leakyRelu (1 / 5) ((∑ i ∈ Finset.range nodes.c, W f i *
          leakyRelu (1 / 5) (∑ j ∈ Finset.range nodes.n,
            nodes.val b i j * adj.val b j c)) + bias f) + nodes.val b f c := rfl

/-- The logistic sigmoid is nonnegative. -/
theorem sigmoid_nonneg (x : ℝ) : 0 ≤ sigmoid x := by
  unfold sigmoid
  have h := Real.exp_pos (-x)
  positivity

/-- The logistic sigmoid is at most one. -/
theorem sigmoid_le_one (x : ℝ) : sigmoid x ≤ 1 := by
  unfold sigmoid
  have h := Real.exp_pos (-x)
  rw [div_le_one (by linarith)]
  linarith

/-- C5: every entry of the adjacency matrix produced by
build_joint_correlation_matrix lies in [0, 1], for every parameter
setting, every guidance and node input, and every index: the final
sigmoid bounds all entries. -/
theorem claim_c5_theorem (p : TDRGParams) (f3 f4 f5 V : Tensor3 ℝ) (b i j : ℕ) :
    0 ≤ (buildJCMModel p f3 f4 f5 V).val b i j ∧
      (buildJCMModel p f3 f4 f5 V).val b i j ≤ 1 :=
  ⟨sigmoid_nonneg _, sigmoid_le_one _⟩

/-- C9 (amended): the GCN-branch output is invariant under any change of
the live transformer-projection parameters (transform_7, transform_14,
transform_28): every use of them inside the GCN branch sits behind a
detach, modelled by the shadow parameter copy pS, so the gradient of the
GCN branch with respect to those parameters is zero. -/
theorem claim_c9_theorem (T : TransformerFn) (pos : PosFn) (pL pS : TDRGParams)
    (x3 x4 : Tensor4 ℝ) (w7 : ℕ → ℕ → ℕ → ℕ → ℝ) (b7 : ℕ → ℝ)
    (w14 : ℕ → ℕ → ℝ) (b14 : ℕ → ℝ) (w28 : ℕ → ℕ → ℝ) (b28 : ℕ → ℝ) :
    outGcnModel T pos
      { pL with w7 := w7, b7 := b7, w14 := w14, b14 := b14, w28 := w28, b28 := b28 }
      pS x3 x4 = outGcnModel T pos pL pS x3 x4 := rfl

/-- C9 counterexample: at the concrete parameter setting whose
trans_classifier weight and bias are zero, the transformer-branch output
is unchanged when the transform_14 projection weight moves from 0 to 1:
its gradient with respect to the projection parameters vanishes at this
setting, refuting the unqualified claim that it is non-zero for every
input and parameter setting. -/
theorem claim_c9_counterexample :
    outTransModel cexTrans cexPos cexParamsAlt cexInput cexInput
      = outTransModel cexTrans cexPos cexParams cexInput cexInput ∧
      cexParamsAlt.w14 0 0 ≠ cexParams.w14 0 0 := by
  constructor
  · funext b q
    simp [outTransModel, cexParamsAlt, cexParams]
  · norm_num [cexParamsAlt, cexParams]
